import Mathlib

/-!
Verification of the post-processing pipeline of the S3FD face-detection
plugin (`plugins/extract/detect/s3fd.py`): the non-maximum-suppression
routine `S3fd._nms`, the box decoder `S3fd.decode`, the softmax/score
filter, the per-image post-processing `S3fd._post_process` and the
orchestrator `S3fd.finalize_predictions`.

Geometry and NMS are embedded over an arbitrary linear ordered field
(instantiated at `ℚ` for concrete evaluations); the softmax / decode
parts, which use `exp` and `log`, are embedded over `ℝ`.
-/

namespace S3fd

/-- A candidate box row `[x_1, y_1, x_2, y_2, score]`, as produced by
`_post_process` and consumed by `_nms` (which splits such rows into the
five columns with `np.split(boxes, 5, axis=1)`). -/
structure Box (α : Type) where
  x1 : α
  y1 : α
  x2 : α
  y2 : α
  score : α
deriving DecidableEq

variable {α : Type} [LinearOrderedField α]

/-- Line 295: `areas = (x_2 - x_1 + 1) * (y_2 - y_1 + 1)` (pixel-inclusive
area of one box). -/
def area (b : Box α) : α := (b.x2 - b.x1 + 1) * (b.y2 - b.y1 + 1)

/-- Lines 303-305: for a pair (`best`, one element of `rest`),
`xx_1, yy_1 = maximum(x_1[best], x_1[rest]), maximum(y_1[best], y_1[rest])`,
`xx_2, yy_2 = minimum(x_2[best], x_2[rest]), minimum(y_2[best], y_2[rest])`,
`max_area = maximum(0., xx_2 - xx_1 + 1.) * maximum(0., yy_2 - yy_1 + 1.)`. -/
def interArea (best rest : Box α) : α :=
  let xx1 := max best.x1 rest.x1
  let yy1 := max best.y1 rest.y1
  let xx2 := min best.x2 rest.x2
  let yy2 := min best.y2 rest.y2
  max 0 (xx2 - xx1 + 1) * max 0 (yy2 - yy1 + 1)

/-- Lines 304-307: `overlap = max_area / minimum(areas[best], areas[rest])`
when `method == 'iom'`, else
`overlap = max_area / (areas[best] + areas[rest] - max_area)`. -/
def overlap (method : String) (best rest : Box α) : α :=
  if method = "iom" then interArea best rest / min (area best) (area rest)
  else interArea best rest / (area best + area rest - interArea best rest)

/-- Line 296: `order = scores.argsort()[::-1]`. After
`np.split(boxes, 5, axis=1)` the `scores` column has shape (n, 1), so
`argsort()` (which sorts along the LAST axis) argsorts each length-1 row,
producing an all-zeros array of shape (n, 1); `[::-1]` then reverses the
rows. The resulting order is one index-0 entry per candidate — it does not
depend on the score values at all. We model it as the flat list of those
per-row indices. -/
def nmsOrder (scores : List α) : List Nat :=
  (scores.map (fun _ => (0 : Nat))).reverse

/-- Message of the exception raised at line 308, `if best >= self.confidence:`:
`_nms` is a `@staticmethod`, so the name `self` is unbound in its body. -/
def nmsSelfErr : String := "NameError: name self is not defined"

/-- Lines 298-311, the suppression loop `while order.size > 0: ...`. The
loop body first computes the pairwise overlaps of the best-ranked remaining
candidate against the rest (pure arithmetic, lines 299-307), and then
evaluates `best >= self.confidence` (line 308), which raises `NameError`
because `self` is unbound in the static method. Hence a non-empty order
raises in the first iteration, and an empty order returns the accumulated
`retained_box_indices`. -/
def nmsLoop (boxes : List (Box α)) (method : String)
    (retained : List Nat) (order : List Nat) : Except String (List Nat) :=
  match order with
  | [] => Except.ok retained
  | best :: rest =>
      let bestBox := boxes.getD best (Box.mk 0 0 0 0 0)
      let _olap := rest.map (fun j => overlap method bestBox (boxes.getD j (Box.mk 0 0 0 0 0)))
      Except.error nmsSelfErr

/-- Lines 290-313, `S3fd._nms(boxes, threshold, method)`: split the rows
into columns, compute the areas, rank with `argsort` (see `nmsOrder`), run
the suppression loop, and return `boxes[retained_box_indices]`. -/
def nms (boxes : List (Box α)) (_threshold : α) (method : String) :
    Except String (List (Box α)) :=
  let scores := boxes.map Box.score
  let _areas := boxes.map area
  let order := nmsOrder scores
  (nmsLoop boxes method [] order).map
    (fun idxs => idxs.map (fun i => boxes.getD i (Box.mk 0 0 0 0 0)))

/-! Spec-side formulas for the overlap convention (claim C5): the spec
states `area(b) = (x2-x1+1)*(y2-y1+1)`,
`intersection = max(0, min(x2)-max(x1)+1) * max(0, min(y2)-max(y1)+1)`,
`IoU = intersection / (area(best)+area(rest)-intersection)` and
`IoM = intersection / min(area(best), area(rest))`. -/

/-- Spec wording: pixel-inclusive area. -/
def specArea (b : Box α) : α := (b.x2 - b.x1 + 1) * (b.y2 - b.y1 + 1)

/-- Spec wording: pixel-inclusive intersection area. -/
def specInter (b r : Box α) : α :=
  max 0 (min b.x2 r.x2 - max b.x1 r.x1 + 1) * max 0 (min b.y2 r.y2 - max b.y1 r.y1 + 1)

/-- Spec wording: intersection over union. -/
def specIoU (b r : Box α) : α :=
  specInter b r / (specArea b + specArea r - specInter b r)

/-- Spec wording: intersection over minimum area. -/
def specIoM (b r : Box α) : α :=
  specInter b r / min (specArea b) (specArea r)

omit [LinearOrderedField α] in
lemma nmsOrder_eq_nil_iff (scores : List α) : nmsOrder scores = [] ↔ scores = [] := by
  simp [nmsOrder]

lemma nmsLoop_cons (boxes : List (Box α)) (method : String) (retained : List Nat)
    (best : Nat) (rest : List Nat) :
    nmsLoop boxes method retained (best :: rest) = Except.error nmsSelfErr := rfl

lemma nmsLoop_ne_nil (boxes : List (Box α)) (method : String) (retained : List Nat)
    (order : List Nat) (h : order ≠ []) :
    nmsLoop boxes method retained order = Except.error nmsSelfErr := by
  cases order with
  | nil => exact absurd rfl h
  | cons o os => rfl

/-- Shared helper: `_nms` returns the empty retained list on an empty
candidate array and raises `NameError` on any non-empty one. -/
lemma nms_eq (boxes : List (Box α)) (t : α) (m : String) :
    nms boxes t m =
      if boxes.isEmpty then Except.ok [] else Except.error nmsSelfErr := by
  cases boxes with
  | nil => rfl
  | cons b bs =>
      simp only [nms]
      rw [nmsLoop_ne_nil (b :: bs) m [] (nmsOrder (List.map Box.score (b :: bs)))
        (by simp [nmsOrder])]
      rfl

/-- C10: `_nms` is declared a `@staticmethod` yet its loop body reads
`self.confidence` (line 308), so every non-empty candidate array raises
`NameError` in the first loop iteration; `_nms` returns normally only when
the candidate array is empty, and then its result is empty. -/
theorem c10_nms_self_name_error (boxes : List (Box ℚ)) (t : ℚ) (m : String) :
    nms boxes t m =
      if boxes.isEmpty then Except.ok [] else Except.error nmsSelfErr :=
  nms_eq boxes t m

/-- C7 counterexample: on a two-candidate list with identical scores the
suppression loop does not run to completion removing the best box each
iteration — `_nms` raises `NameError` in the first iteration and never
returns a retained list for this input. -/
theorem c7_counterexample :
    ¬ ∃ r, nms [Box.mk (0 : ℚ) 0 10 10 (1/2), Box.mk 0 0 10 10 (1/2)] (3/10) "iou"
        = Except.ok r := by
  intro hex
  obtain ⟨r, hr⟩ := hex
  have h : nms [Box.mk (0 : ℚ) 0 10 10 (1/2), Box.mk 0 0 10 10 (1/2)] (3/10) "iou"
      = Except.error nmsSelfErr := rfl
  rw [h] at hr
  exact Except.noConfusion hr

/-- C7 (amended): `_nms` terminates on every finite candidate list,
identical scores included, because the loop runs at most one iteration: it
either returns `ok []` without entering the loop (empty input) or raises
`NameError` in the first iteration (non-empty input). -/
theorem c7_nms_terminates (boxes : List (Box ℚ)) (t : ℚ) (m : String) :
    nms boxes t m = Except.ok [] ∨ nms boxes t m = Except.error nmsSelfErr := by
  rw [nms_eq]
  cases boxes with
  | nil => exact Or.inl rfl
  | cons b bs => exact Or.inr rfl

/-- C1 (code behaviour at the failing input): a single candidate
`[0, 0, 10, 10, 0.9]` whose score meets the configured confidence 0.5 is
not returned unchanged — `_nms` raises `NameError` instead of returning
any box list. -/
theorem c1_single_box_name_error :
    nms [Box.mk (0 : ℚ) 0 10 10 (9/10)] (3/10) "iou" = Except.error nmsSelfErr := rfl

/-- C4 (code behaviour at the scenario input): for the overlapping pair
`[0,0,10,10,0.9]` and `[1,1,11,11,0.8]` the code overlap formula gives
IoU = 100/142 = 50/71 (> 0.3, so under the intended semantics only the
first box would be retained), but `_nms` on this input raises `NameError`
instead of returning `[[0,0,10,10,0.9]]`. -/
theorem c4_scenario_name_error :
    overlap "iou" (Box.mk (0 : ℚ) 0 10 10 (9/10)) (Box.mk 1 1 11 11 (8/10)) = 50/71 ∧
    nms [Box.mk (0 : ℚ) 0 10 10 (9/10), Box.mk 1 1 11 11 (8/10)] (3/10) "iou"
      = Except.error nmsSelfErr := by
  constructor
  · norm_num [overlap, interArea, area, max_def, min_def]
    decide
  · rfl

/-- C6 (code behaviour at the failing input): the ranking `order` computed
at line 296 is all zeros whatever the scores are — for scores
`[0.1, 0.9]` a descending-score order would start with index 1, but the
code computes `[0, 0]` — and the loop then raises `NameError` on this
two-candidate input anyway. -/
theorem c6_order_ignores_scores :
    nmsOrder [(1 : ℚ)/10, 9/10] = [0, 0] ∧
    nms [Box.mk (0 : ℚ) 0 1 1 (1/10), Box.mk 5 5 6 6 (9/10)] (3/10) "iou"
      = Except.error nmsSelfErr :=
  ⟨rfl, rfl⟩

/-- C5: inside `_nms` the pairwise overlap is computed with exactly the
pixel-inclusive convention the spec states: `area = (x2-x1+1)*(y2-y1+1)`,
`intersection = max(0, min(x2)-max(x1)+1) * max(0, min(y2)-max(y1)+1)`,
`IoU = intersection / (area(best)+area(rest)-intersection)` and
`IoM = intersection / min(area(best), area(rest))`. -/
theorem c5_overlap_convention (b r : Box ℚ) :
    area b = specArea b ∧ interArea b r = specInter b r ∧
    overlap "iou" b r = specIoU b r ∧ overlap "iom" b r = specIoM b r := by
  refine ⟨rfl, rfl, ?_, ?_⟩
  · simp only [overlap, specIoU]
    rfl
  · simp only [overlap, specIoM]
    rw [if_pos True.intro]
    rfl

/-! Real-valued part: the softmax score filter, the prior decoder, the
per-image post-processing and the batch orchestrator. -/

/-- Line 268, scipy `logsumexp` on one 2-class cell:
`logsumexp(x) = log (exp x_0 + exp x_1)`. -/
noncomputable def logsumexp2 (a b : ℝ) : ℝ := Real.log (Real.exp a + Real.exp b)

/-- Line 268, `S3fd.softmax`:
`np.exp(inp - logsumexp(inp, axis=axis, keepdims=True))`, specialised to
one 2-class cell of the class axis (axis 1), which is how `_post_process`
applies it at line 248. -/
noncomputable def softmax2 (a b : ℝ) : ℝ × ℝ :=
  (Real.exp (a - logsumexp2 a b), Real.exp (b - logsumexp2 a b))

/-- Spec wording: the standard softmax definition,
`softmax(x)_c = exp x_c / (exp x_0 + exp x_1)`. -/
noncomputable def stdSoftmax2 (a b : ℝ) : ℝ × ℝ :=
  (Real.exp a / (Real.exp a + Real.exp b), Real.exp b / (Real.exp a + Real.exp b))

open Classical in
/-- Line 252, `poss = zip(*np.where(ocls[:, 1, :, :] > 0.05))` on the
batch-0 slice of a classification grid (rows of raw 2-class cell scores,
softmaxed per line 248): the `(hindex, windex)` pairs of the cells whose
face-class (channel 1) probability is strictly greater than 0.05. -/
noncomputable def selectedCells (ocls : List (List (ℝ × ℝ))) : List (Nat × Nat) :=
  (ocls.enum.map (fun hrow =>
    hrow.2.enum.filterMap (fun wc =>
      if 0.05 < (softmax2 wc.2.1 wc.2.2).2 then some (hrow.1, wc.1) else none))).flatten

/-- Raw 2-class scores of the cell at `(hindex, windex)` of a
classification grid, when both indices are in range. -/
def cellAt (ocls : List (List (ℝ × ℝ))) (h w : Nat) : Option (ℝ × ℝ) :=
  (ocls[h]?).bind (fun row => row[w]?)

/-- One pyramid level of a per-image network output: the pair
(`ocls`, `oreg`) read at `bboxlist[i * 2]` and `bboxlist[i * 2 + 1]` in
`_post_process` (the network output list alternates classification and
regression tensors). `ocls` is the batch-0 slice as rows (`hindex`) of
cells (`windex`) of raw 2-class scores; `oreg` holds the four regression
offsets per cell. -/
structure Level where
  ocls : List (List (ℝ × ℝ))
  oreg : List (List (ℝ × ℝ × ℝ × ℝ))

/-- All raw 2-class cell scores of one image, across its levels. -/
def cellScores (img : List Level) : List (ℝ × ℝ) :=
  (img.map (fun l => l.ocls.flatten)).flatten

/-- Some cell of some level of the image passes the strict 0.05
face-probability filter of line 252. -/
def anyPass (img : List Level) : Prop :=
  ∃ c ∈ cellScores img, 0.05 < (softmax2 c.1 c.2).2

/-- Message of the exception raised at line 259,
`box = self.decode(loc, priors, variances)`: the module has no global
`variances` (it is local to `decode`, line 283), so evaluating the call
arguments raises `NameError`. (Even with such a global, `decode` takes
only `(loc, priors)`, so the 3-argument call would raise `TypeError`.) -/
def varErr : String := "NameError: name variances is not defined"

open Classical in
/-- Lines 243-263, `S3fd._post_process(bboxlist)` for one image: softmax
every classification tensor in place (lines 247-248), then walk the
passing cells of every level (line 252). The per-cell loop body evaluates
`self.decode(loc, priors, variances)` (line 259), which raises `NameError`
at the FIRST passing cell, so the function raises as soon as any cell
passes; otherwise the loop body never runs, `retval` stays `[]`, and line
262 (`np.array(retval) if len(retval) == 0 else np.zeros((1, 5))`)
returns the empty array. -/
noncomputable def postProcess (img : List Level) : Except String (List (Box ℝ)) :=
  if anyPass img then Except.error varErr else Except.ok []

/-- Lines 270-288, `S3fd.decode(loc, priors)` on one row, with the local
`variances = [0.1, 0.2]`:
`boxes = concat(priors[:2] + loc[:2] * 0.1 * priors[2:], priors[2:] * exp(loc[2:] * 0.2))`,
then in place `boxes[:2] -= boxes[2:] / 2` followed by
`boxes[2:] += boxes[:2]` (the second update reads the already-updated
first half). -/
noncomputable def decode (loc prior : ℝ × ℝ × ℝ × ℝ) : ℝ × ℝ × ℝ × ℝ :=
  match loc, prior with
  | (l0, l1, l2, l3), (pcx, pcy, pw, ph) =>
    let bcx := pcx + l0 * 0.1 * pw
    let bcy := pcy + l1 * 0.1 * ph
    let bw := pw * Real.exp (l2 * 0.2)
    let bh := ph * Real.exp (l3 * 0.2)
    let x1 := bcx - bw / 2
    let y1 := bcy - bh / 2
    let x2 := bw + x1
    let y2 := bh + y1
    (x1, y1, x2, y2)

/-- Lines 255-258: the prior of cell `(hindex, windex)` at a given stride:
`axc, ayc = stride / 2 + windex * stride, stride / 2 + hindex * stride`,
`priors = [[axc / 1.0, ayc / 1.0, stride * 4 / 1.0, stride * 4 / 1.0]]`. -/
noncomputable def priorFor (stride : ℝ) (hindex windex : Nat) : ℝ × ℝ × ℝ × ℝ :=
  (stride / 2 + (windex : ℝ) * stride, stride / 2 + (hindex : ℝ) * stride,
    stride * 4, stride * 4)

/-- Spec wording: a center-size prior `(cx, cy, w, h)` written in corner
form. -/
noncomputable def cornerForm (prior : ℝ × ℝ × ℝ × ℝ) : ℝ × ℝ × ℝ × ℝ :=
  match prior with
  | (cx, cy, w, h) => (cx - w / 2, cy - h / 2, cx + w / 2, cy + h / 2)

/-- Lines 233-241, `S3fd.finalize_predictions(batch_of_bounding_boxes)`:
for each image of the batch, in order, post-process its network output,
then `bboxlist = self._nms(bboxlist, 0.3, 'iou') if bboxlist else None`
(an empty candidate array is falsy, so such an image gets the `None`
empty-result marker and NMS is not invoked for it). -/
noncomputable def finalize (batch : List (List Level)) :
    Except String (List (Option (List (Box ℝ)))) :=
  match batch with
  | [] => Except.ok []
  | img :: rest => do
      let bboxlist ← postProcess img
      let r ← if bboxlist.isEmpty then pure none
              else (nms bboxlist (0.3 : ℝ) "iou").map some
      let rs ← finalize rest
      pure (r :: rs)

lemma softmax2_eq_stdSoftmax2 (a b : ℝ) : softmax2 a b = stdSoftmax2 a b := by
  have hpos : (0 : ℝ) < Real.exp a + Real.exp b := by positivity
  simp [softmax2, stdSoftmax2, logsumexp2, Real.exp_sub, Real.exp_log hpos]

lemma softmax2_zero_zero : (softmax2 (0 : ℝ) 0).2 = 1 / 2 := by
  rw [softmax2_eq_stdSoftmax2]
  simp [stdSoftmax2, Real.exp_zero]
  norm_num

/-- Concrete one-level image with a single 1×1 cell of raw class scores
`(0, 0)`: its face probability is `1/2 > 0.05`, so the cell passes the
score filter. -/
noncomputable def passLevel : Level :=
  Level.mk [[((0 : ℝ), 0)]] [[((0 : ℝ), 0, 0, 0)]]

lemma anyPass_passLevel : anyPass [passLevel] := by
  refine ⟨((0 : ℝ), 0), ?_, ?_⟩
  · simp [cellScores, passLevel]
  · rw [softmax2_zero_zero]
    norm_num

lemma postProcess_passLevel : postProcess [passLevel] = Except.error varErr := by
  simp only [postProcess]
  rw [if_pos anyPass_passLevel]

lemma decode_zero (p : ℝ × ℝ × ℝ × ℝ) : decode (0, 0, 0, 0) p = cornerForm p := by
  obtain ⟨cx, cy, w, h⟩ := p
  simp only [decode, cornerForm, zero_mul, Real.exp_zero, mul_one, add_zero, Prod.mk.injEq]
  refine ⟨by ring_nf, by ring_nf, by ring_nf, by ring_nf⟩

/-- C9: the softmax the code computes through the log-sum-exp identity
equals the standard two-class softmax on every input, and the score filter
selects exactly the in-range cells whose face-class (channel 1)
probability is strictly greater than 0.05. -/
theorem c9_softmax_lse_and_filter :
    (∀ a b : ℝ, softmax2 a b = stdSoftmax2 a b) ∧
    (∀ (ocls : List (List (ℝ × ℝ))) (h w : Nat),
      (h, w) ∈ selectedCells ocls ↔
        ∃ c, cellAt ocls h w = some c ∧ 0.05 < (softmax2 c.1 c.2).2) := by
  refine ⟨softmax2_eq_stdSoftmax2, ?_⟩
  intro ocls h w
  constructor
  · intro hmem
    simp only [selectedCells, List.mem_flatten, List.mem_map] at hmem
    obtain ⟨l, ⟨⟨i, row⟩, hrow, rfl⟩, hin⟩ := hmem
    rw [List.mem_filterMap] at hin
    obtain ⟨⟨j, c⟩, hj, hc⟩ := hin
    rw [Option.ite_none_right_eq_some, Option.some.injEq] at hc
    obtain ⟨hcond, hij⟩ := hc
    obtain ⟨rfl, rfl⟩ : i = h ∧ j = w :=
      ⟨congrArg Prod.fst hij, congrArg Prod.snd hij⟩
    rw [List.mk_mem_enum_iff_getElem?] at hrow hj
    exact ⟨c, by simp [cellAt, hrow, hj], hcond⟩
  · intro hex
    obtain ⟨c, hcell, hcond⟩ := hex
    rw [cellAt, Option.bind_eq_some] at hcell
    obtain ⟨row, hrow, hc⟩ := hcell
    simp only [selectedCells, List.mem_flatten, List.mem_map]
    refine ⟨_, ⟨(h, row), List.mk_mem_enum_iff_getElem?.mpr hrow, rfl⟩, ?_⟩
    rw [List.mem_filterMap]
    exact ⟨(w, c), List.mk_mem_enum_iff_getElem?.mpr hc, by rw [if_pos hcond]⟩

/-- C2 (code behaviour at the failing input): a per-image output with a
single 1×1-cell level whose raw class scores are `(0, 0)` has face
probability `1/2 > 0.05` at that cell, yet `_post_process` raises
`NameError` (at the `self.decode(loc, priors, variances)` call) instead of
returning one decoded candidate row. -/
theorem c2_post_process_raises : postProcess [passLevel] = Except.error varErr :=
  postProcess_passLevel

/-- C8 counterexample: a batch whose single image has a passing cell does
not get one result per image — `finalize_predictions` propagates the
`NameError` raised inside `_post_process`. -/
theorem c8_counterexample : finalize [[passLevel]] = Except.error varErr := by
  simp only [finalize, postProcess_passLevel]
  rfl

/-- C8 (amended): on every batch in which no image has a cell passing the
0.05 score filter (every accumulated candidate list is empty),
`finalize_predictions` returns exactly one result per image, in input
image order, each the explicit empty-result marker `None`, without
invoking NMS and without raising an error. -/
theorem c8_finalize_empty_markers (batch : List (List Level))
    (hq : ∀ img ∈ batch, ¬ anyPass img) :
    finalize batch = Except.ok (batch.map (fun _ => none)) := by
  induction batch with
  | nil => rfl
  | cons img rest ih =>
      have h1 : postProcess img = Except.ok [] := by
        simp only [postProcess]
        rw [if_neg (hq img (by simp))]
      have h2 : finalize rest = Except.ok (rest.map (fun _ => none)) :=
        ih (fun i hi => hq i (List.mem_cons_of_mem img hi))
      simp only [finalize, h1, h2, List.map_cons]
      rfl

/-- Witness for the amended C8: the concrete two-image batch whose images
have no levels at all (hence no passing cells) yields the two `None`
markers, in order. -/
theorem c8_finalize_empty_markers_witness :
    finalize [[], []] = Except.ok [none, none] :=
  c8_finalize_empty_markers [[], []]
    (by
      intro img hi
      have himg : img = [] := by
        rcases List.mem_cons.mp hi with h | h
        · exact h
        · simpa using h
      subst himg
      simp [anyPass, cellScores])

/-- C3 counterexample: at stride 4, cell `(0, 0)`, the code prior is
`(2, 2, 16, 16)` (the prior size is `stride * 4`, not `stride`), so the
box decoded from a zero offset is `(-6, -6, 10, 10)` — not the
`(0, 0, 4, 4)` the spec states. -/
theorem c3_counterexample :
    decode (0, 0, 0, 0) (priorFor 4 0 0) ≠ ((0 : ℝ), 0, 4, 4) := by
  rw [decode_zero]
  norm_num [priorFor, cornerForm, Prod.ext_iff]

/-- C3 (amended): decoding an all-zero regression offset yields exactly
the prior box in corner form (center preserved, size preserved); for
stride 4 at cell `(0, 0)` the prior is `(2, 2, 16, 16)`, so the decoded
box is `(-6, -6, 10, 10)`. -/
theorem c3_decode_zero_roundtrip :
    (∀ p : ℝ × ℝ × ℝ × ℝ, decode (0, 0, 0, 0) p = cornerForm p) ∧
    decode (0, 0, 0, 0) (priorFor 4 0 0) = (-6, -6, 10, 10) := by
  refine ⟨decode_zero, ?_⟩
  rw [decode_zero]
  norm_num [priorFor, cornerForm, Prod.ext_iff]

end S3fd
